import Mathlib

/-!
Verification of the go-chat-server broadcast hub.

Shallow embedding of the Go sources:
* `client_manager.go` — the `ClientManager` / `Client` / `Message` types;
* `manager.go` — the hub control loop `start()` (register / unregister /
  broadcast select branches) and the `send` helper;
* `client.go` — the per-connection `read` pump that wraps an inbound peer
  text in a `Message` envelope and submits it to the broadcast channel.

The Go registry is `clients : map[*Client]bool`, keyed by pointer identity.
We model pointer identity as a `Nat` key and keep, for every connection the
hub has ever seen, its uuid, its registry membership bit (`inReg`, i.e.
membership in the `clients` map) and the state of its outbound `send`
channel.  A Go channel of capacity `cap` is modelled as a bounded buffer:
`select { case conn.send <- msg: ... default: ... }` takes the send branch
exactly when the buffer is open and has room.  Closing a channel flips
`isOpen`; the hub's blocking `conn.send <- msg` in the `send` helper is
modelled as an enqueue (delivery to the outbound queue).
-/

namespace GoChat

/-- The `Message` struct of `client_manager.go`: the JSON wire envelope.
All three fields are tagged `omitempty`, so an empty string field is
omitted from the serialized object. -/
structure Message where
  sender : String
  recipient : String
  content : String
deriving DecidableEq, Repr

/-- One hexadecimal digit, lower case, as emitted by Go's JSON encoder. -/
def hexDigit (n : Nat) : Char :=
  if n < 10 then Char.ofNat (48 + n) else Char.ofNat (87 + n)

/-- Escaping of a single character inside a JSON string, following Go's
`encoding/json` string encoder (HTML-escaping on, its default for
`json.Marshal`). -/
def escChar (c : Char) : String :=
  if c = '"' then "\\\""
  else if c = '\\' then "\\\\"
  else if c = '\n' then "\\n"
  else if c = '\r' then "\\r"
  else if c = '\t' then "\\t"
  else if c = '<' then "\\u003c"
  else if c = '>' then "\\u003e"
  else if c = '&' then "\\u0026"
  else if c.toNat < 32 then
    "\\u00" ++ String.singleton (hexDigit (c.toNat / 16))
            ++ String.singleton (hexDigit (c.toNat % 16))
  else if c.toNat = 8232 then "\\u2028"
  else if c.toNat = 8233 then "\\u2029"
  else String.singleton c

/-- Escaped JSON string body. -/
def escString (s : String) : String :=
  String.join (s.data.map escChar)

/-- A JSON string literal. -/
def quoted (s : String) : String :=
  "\"" ++ escString s ++ "\""

/-- The JSON object `json.Marshal` produces for a `Message`: fields in
struct order (sender, recipient, content), each omitted when empty
(`omitempty`). -/
def Message.render (m : Message) : String :=
  let fs : List String :=
    (if m.sender = "" then [] else ["\"sender\":" ++ quoted m.sender])
    ++ (if m.recipient = "" then [] else ["\"recipient\":" ++ quoted m.recipient])
    ++ (if m.content = "" then [] else ["\"content\":" ++ quoted m.content])
  "\x7b" ++ String.intercalate "," fs ++ "\x7d"

/-- `json.Marshal` returns `([]byte, error)`.  For a struct whose fields
are three plain strings the encoder cannot fail (errors arise only for
unsupported types or cyclic values), so the embedding always returns
`some`; the `Option` records the Go error channel faithfully. -/
def Message.marshal (m : Message) : Option String :=
  some m.render

/-- Pointer identity of a `*Client` (the key of the `clients` map). -/
abbrev ClientPtr := Nat

/-- State of a client's outbound `send chan []byte`: whether `close` has
been executed on it, its buffer capacity, and its current contents in
FIFO order. -/
structure SendQueue where
  isOpen : Bool
  cap : Nat
  buf : List String
deriving DecidableEq, Repr

/-- The channel as created by `make(chan []byte)` in `wsHandler` (we keep
the capacity as a parameter; the buffer starts empty and open). -/
def freshQueue (cap : Nat) : SendQueue :=
  { isOpen := true, cap := cap, buf := [] }

/-- The non-blocking send case of the broadcast `select` can fire exactly
when the channel is open and its buffer has room. -/
def SendQueue.hasRoom (q : SendQueue) : Bool :=
  q.isOpen && q.buf.length < q.cap

/-- Delivery of a message into the outbound queue. -/
def SendQueue.enqueue (q : SendQueue) (m : String) : SendQueue :=
  { q with buf := q.buf ++ [m] }

/-- `close(conn.send)`. -/
def SendQueue.close (q : SendQueue) : SendQueue :=
  { q with isOpen := false }

/-- Everything the hub tracks about one connection: its uuid (`Client.id`),
whether it is currently in the `clients` registry map, and its outbound
channel state. -/
structure Conn where
  id : String
  inReg : Bool
  send : SendQueue
deriving DecidableEq, Repr

/-- The `ClientManager` state: association list over pointer identities of
every connection the hub has seen.  The registry of `manager.clients` is
the set of entries whose `inReg` bit is set. -/
structure Hub where
  conns : List (ClientPtr × Conn)
deriving DecidableEq, Repr

/-- Pointwise update of every connection's state, keeping keys fixed.
All loop bodies of `start()` and `send` have this shape. -/
def Hub.mapConns (h : Hub) (f : ClientPtr → Conn → Conn) : Hub :=
  ⟨h.conns.map (fun e => (e.1, f e.1 e.2))⟩

/-- The pointer keys the hub knows. -/
def Hub.keys (h : Hub) : List ClientPtr :=
  h.conns.map Prod.fst

/-- Well-formedness: one entry per pointer. -/
def Hub.WF (h : Hub) : Prop :=
  h.keys.Nodup

/-- Membership in the `clients` registry map. -/
def Hub.registered (h : Hub) (p : ClientPtr) : Bool :=
  match List.lookup p h.conns with
  | some cn => cn.inReg
  | none => false

/-- The registry: entries currently in the `clients` map. -/
def Hub.registry (h : Hub) : List (ClientPtr × Conn) :=
  h.conns.filter (fun e => e.2.inReg)

/-- `len(manager.clients)`. -/
def Hub.registrySize (h : Hub) : Nat :=
  h.registry.length

/-- Loop body of the `send` helper: deliver `msg` to a connection when it
is registered and is not the ignored client (`if conn != ignore`); the
channel send there is blocking, modelled as an enqueue. -/
def sendf (msg : String) (ig : ClientPtr) (k : ClientPtr) (cn : Conn) : Conn :=
  if cn.inReg && k != ig then { cn with send := cn.send.enqueue msg } else cn

/-- `func (m *ClientManager) send(message []byte, ignore *Client)`:
broadcasts to all registered clients except `ignore`. -/
def Hub.sendExcept (h : Hub) (msg : String) (ig : ClientPtr) : Hub :=
  h.mapConns (sendf msg ig)

/-- The join notice `Message{Content: "New client connected"}` built in the
register branch of `start()` in `manager.go`. -/
def joinNotice : Message :=
  { sender := "", recipient := "", content := "New client connected" }

/-- The leave notice `Message{Content: "/A socket disconnected."}` built in
the unregister branch of `start()`. -/
def leaveNotice : Message :=
  { sender := "", recipient := "", content := "/A socket disconnected." }

/-- `msg, _ := json.Marshal(...)` for the join notice: the error is
discarded; on (impossible) failure Go would hand `nil` bytes on. -/
def joinPayload : String :=
  (Message.marshal joinNotice).getD ""

/-- `msg, _ := json.Marshal(...)` for the leave notice. -/
def leavePayload : String :=
  (Message.marshal leaveNotice).getD ""

/-- Registry bit update of the register branch for an already-known
pointer: `manager.clients[conn] = true`. -/
def regf (p : ClientPtr) (k : ClientPtr) (cn : Conn) : Conn :=
  if k = p then { cn with inReg := true } else cn

/-- The `case conn := <-manager.register` branch of `start()`:
`manager.clients[conn] = true`, then marshal the join notice and
`manager.send(msg, conn)`.  A pointer the hub has never seen arrives with
the queue `wsHandler` just created (`make(chan []byte)`): open and empty,
of capacity `cap`, and uuid `uuid` (`uuid.NewString()`). -/
def Hub.registerStep (h : Hub) (p : ClientPtr) (uuid : String) (cap : Nat) : Hub :=
  let h1 : Hub :=
    if (List.lookup p h.conns).isSome then h.mapConns (regf p)
    else ⟨h.conns ++ [(p, { id := uuid, inReg := true, send := freshQueue cap })]⟩
  h1.sendExcept joinPayload p

/-- The per-connection mutation of the unregister branch:
`close(conn.send); delete(manager.clients, conn)`. -/
def unregf (p : ClientPtr) (k : ClientPtr) (cn : Conn) : Conn :=
  if k = p then { cn with inReg := false, send := cn.send.close } else cn

/-- The `case conn := <-manager.unregister` branch of `start()`: only when
`conn` is in the `clients` map, close its channel, delete it, marshal the
leave notice and `manager.send(msg, conn)`. -/
def Hub.unregisterStep (h : Hub) (p : ClientPtr) : Hub :=
  if h.registered p then (h.mapConns (unregf p)).sendExcept leavePayload p
  else h

/-- Loop body of the broadcast branch, per registered connection:
`select { case conn.send <- message: default: close(conn.send);
delete(manager.clients, conn) }`.  (A send on a closed channel would
panic in Go; for registered connections the queue is open in every
reachable state — the registry/open invariant below.) -/
def broadcastConn (msg : String) (cn : Conn) : Conn :=
  if cn.inReg then
    if cn.send.hasRoom then { cn with send := cn.send.enqueue msg }
    else { cn with inReg := false, send := cn.send.close }
  else cn

/-- The `case message := <-manager.broadcast` branch of `start()`. -/
def Hub.broadcastStep (h : Hub) (msg : String) : Hub :=
  h.mapConns (fun _ cn => broadcastConn msg cn)

/-- The inbound pump (`client.read`) wraps a peer text `t` read from the
connection with uuid `uuid` as `Message{Sender: c.id, Content:
string(message)}`, marshals it ignoring the error, and submits the bytes
to `manager.broadcast`. -/
def inboundPayload (uuid t : String) : String :=
  (Message.marshal { sender := uuid, recipient := "", content := t }).getD ""

/-- A request submitted to the hub's control loop. -/
inductive Op where
  | register (p : ClientPtr) (uuid : String) (cap : Nat)
  | unregister (p : ClientPtr)
  | broadcast (msg : String)
deriving DecidableEq, Repr

/-- One iteration of the `select` in `start()`. -/
def Hub.step (h : Hub) : Op → Hub
  | .register p uuid cap => h.registerStep p uuid cap
  | .unregister p => h.unregisterStep p
  | .broadcast m => h.broadcastStep m

/-- Processing a sequence of requests in order. -/
def Hub.run (h : Hub) : List Op → Hub
  | [] => h
  | op :: ops => (h.step op).run ops

/-- The pointers on whose channels one step executes `close`. -/
def Hub.closedBy (h : Hub) : Op → List ClientPtr
  | .register _ _ _ => []
  | .unregister p => if h.registered p then [p] else []
  | .broadcast _ => (h.registry.filter (fun e => !e.2.send.hasRoom)).map Prod.fst

/-- All `close` executions along a run, in order. -/
def Hub.closeTrace (h : Hub) : List Op → List ClientPtr
  | [] => []
  | op :: ops => h.closedBy op ++ (h.step op).closeTrace ops

/-- A register request carries a connection freshly built by `wsHandler`:
its pointer is new to the hub. -/
def freshOp (h : Hub) : Op → Bool
  | .register p _ _ => (List.lookup p h.conns).isNone
  | _ => true

/-- Every register request along the run is fresh. -/
def Hub.freshRun (h : Hub) : List Op → Bool
  | [] => true
  | op :: ops => freshOp h op && (h.step op).freshRun ops

/-- The registry/open invariant: a connection is in the `clients` map iff
its outbound channel has not been closed. -/
def Hub.inv (h : Hub) : Bool :=
  h.conns.all (fun e => e.2.inReg == e.2.send.isOpen)

/-- Every `close` a run executes acts on a channel that is open at that
moment (so Go's double-close panic is never reached). -/
def Hub.closesOpenRun (h : Hub) : List Op → Bool
  | [] => true
  | op :: ops =>
    (h.closedBy op).all (fun c =>
      match List.lookup c h.conns with
      | some cn => cn.send.isOpen
      | none => false)
    && (h.step op).closesOpenRun ops

/-- How many more times a connection's channel may still be closed: once
while it is registered (or not yet known, since a fresh registration may
still bring it in), never once it is known and out of the registry. -/
def allowance (h : Hub) (c : ClientPtr) : Nat :=
  match List.lookup c h.conns with
  | none => 1
  | some cn => if cn.inReg then 1 else 0

/-- What one successful read-loop iteration of `client.read` submits to
the hub: `jsonMessage, _ := json.Marshal(&Message{Sender: c.id, Content:
string(message)})` followed by `manager.broadcast <- jsonMessage`.  The
marshal error is discarded; were failure possible Go would still submit
the (nil) bytes — on this path nothing else is submitted and no
unregister request is made. -/
def readIterationOps (uuid t : String) : List Op :=
  match Message.marshal { sender := uuid, recipient := "", content := t } with
  | some j => [Op.broadcast j]
  | none => [Op.broadcast ""]

/-- A two-member hub: A and B registered with open, roomy queues. -/
def hubAB : Hub :=
  ⟨[(0, { id := "A", inReg := true, send := freshQueue 2 }),
    (1, { id := "B", inReg := true, send := freshQueue 2 })]⟩

/-- A and B registered, plus a connection the hub evicted earlier (known,
out of the registry, channel closed). -/
def hubABdead : Hub :=
  ⟨[(0, { id := "A", inReg := true, send := freshQueue 2 }),
    (1, { id := "B", inReg := true, send := freshQueue 2 }),
    (9, { id := "X", inReg := false,
          send := { isOpen := false, cap := 2, buf := [] } })]⟩

/-- A slow consumer (capacity-0 queue, never drained) next to a healthy
connection. -/
def hubSlow : Hub :=
  ⟨[(0, { id := "A", inReg := true, send := freshQueue 0 }),
    (1, { id := "B", inReg := true, send := freshQueue 2 })]⟩

/-- A hub already holding a connection with identity "u". -/
def dupHub : Hub :=
  ⟨[(0, { id := "u", inReg := true, send := freshQueue 1 })]⟩

/-! ### Association-list lemmas -/

theorem lookup_map_keyed (f : ClientPtr → Conn → Conn) (l : List (ClientPtr × Conn))
    (p : ClientPtr) :
    List.lookup p (l.map (fun e => (e.1, f e.1 e.2))) = (List.lookup p l).map (f p) := by
  induction l with
  | nil => rfl
  | cons a l ih =>
    by_cases hpa : p = a.1
    · subst hpa
      simp [List.lookup]
    · have hb : (p == a.1) = false := beq_eq_false_iff_ne.mpr hpa
      simp [List.lookup, hb, ih]

theorem lookup_append_of_none (l l' : List (ClientPtr × Conn)) (p : ClientPtr)
    (h : List.lookup p l = none) : List.lookup p (l ++ l') = List.lookup p l' := by
  induction l with
  | nil => rfl
  | cons a l ih =>
    by_cases hpa : p = a.1
    · subst hpa; simp [List.lookup] at h
    · have hb : (p == a.1) = false := beq_eq_false_iff_ne.mpr hpa
      simp only [List.cons_append, List.lookup, hb] at h ⊢
      exact ih h

theorem lookup_append_of_some (l l' : List (ClientPtr × Conn)) (p : ClientPtr) (c : Conn)
    (h : List.lookup p l = some c) : List.lookup p (l ++ l') = some c := by
  induction l with
  | nil => simp [List.lookup] at h
  | cons a l ih =>
    by_cases hpa : p = a.1
    · subst hpa; simp only [List.cons_append, List.lookup, beq_self_eq_true] at h ⊢; exact h
    · have hb : (p == a.1) = false := beq_eq_false_iff_ne.mpr hpa
      simp only [List.cons_append, List.lookup, hb] at h ⊢
      exact ih h

theorem mem_of_lookup_eq_some (l : List (ClientPtr × Conn)) (p : ClientPtr) (c : Conn)
    (h : List.lookup p l = some c) : (p, c) ∈ l := by
  induction l with
  | nil => simp [List.lookup] at h
  | cons a l ih =>
    by_cases hpa : p = a.1
    · subst hpa
      simp only [List.lookup, beq_self_eq_true] at h
      obtain rfl : a.2 = c := by simpa using h
      exact List.mem_cons_self a l
    · have hb : (p == a.1) = false := beq_eq_false_iff_ne.mpr hpa
      simp only [List.lookup, hb] at h
      exact List.mem_cons_of_mem a (ih h)

theorem lookup_eq_some_of_mem_nodup (l : List (ClientPtr × Conn)) (p : ClientPtr) (c : Conn)
    (hnd : (l.map Prod.fst).Nodup) (hmem : (p, c) ∈ l) : List.lookup p l = some c := by
  induction l with
  | nil => cases hmem
  | cons a l ih =>
    rw [List.map_cons] at hnd
    have hnd' := List.nodup_cons.mp hnd
    rcases List.mem_cons.mp hmem with h1 | h2
    · obtain rfl : a = (p, c) := h1.symm
      simp [List.lookup]
    · have hpa : p ≠ a.1 := fun hcontra =>
        hnd'.1 (hcontra ▸ List.mem_map.mpr ⟨(p, c), h2, rfl⟩)
      have hb : (p == a.1) = false := beq_eq_false_iff_ne.mpr hpa
      simp only [List.lookup, hb]
      exact ih hnd'.2 h2

theorem lookup_none_not_mem (l : List (ClientPtr × Conn)) (p : ClientPtr) (c : Conn)
    (h : List.lookup p l = none) : (p, c) ∉ l := by
  intro hmem
  induction l with
  | nil => cases hmem
  | cons a l ih =>
    by_cases hpa : p = a.1
    · subst hpa; simp [List.lookup] at h
    · have hb : (p == a.1) = false := beq_eq_false_iff_ne.mpr hpa
      simp only [List.lookup, hb] at h
      rcases List.mem_cons.mp hmem with h1 | h2
      · exact hpa (congrArg Prod.fst h1)
      · exact ih h h2

/-! ### Lookup through each hub operation -/

theorem Hub.lookup_mapConns (h : Hub) (f : ClientPtr → Conn → Conn) (p : ClientPtr) :
    List.lookup p (h.mapConns f).conns = (List.lookup p h.conns).map (f p) :=
  lookup_map_keyed f h.conns p

theorem Hub.keys_mapConns (h : Hub) (f : ClientPtr → Conn → Conn) :
    (h.mapConns f).keys = h.keys := by
  simp [Hub.mapConns, Hub.keys]

theorem Hub.lookup_sendExcept (h : Hub) (msg : String) (ig p : ClientPtr) :
    List.lookup p (h.sendExcept msg ig).conns
      = (List.lookup p h.conns).map (sendf msg ig p) :=
  h.lookup_mapConns (sendf msg ig) p

theorem Hub.lookup_broadcastStep (h : Hub) (m : String) (p : ClientPtr) :
    List.lookup p (h.broadcastStep m).conns
      = (List.lookup p h.conns).map (broadcastConn m) :=
  h.lookup_mapConns (fun _ cn => broadcastConn m cn) p

theorem Hub.registered_eq_of_lookup (h : Hub) (p : ClientPtr) (cn : Conn)
    (hp : List.lookup p h.conns = some cn) : h.registered p = cn.inReg := by
  unfold Hub.registered
  rw [hp]

theorem Hub.registered_eq_false_of_lookup_none (h : Hub) (p : ClientPtr)
    (hp : List.lookup p h.conns = none) : h.registered p = false := by
  unfold Hub.registered
  rw [hp]

/-- With a fresh pointer, the register branch appends the new entry and
then fans the join notice out past it. -/
theorem Hub.registerStep_eq_fresh (h : Hub) (p : ClientPtr) (uuid : String) (cap : Nat)
    (hfresh : List.lookup p h.conns = none) :
    h.registerStep p uuid cap
      = (Hub.mk (h.conns ++ [(p, { id := uuid, inReg := true, send := freshQueue cap })])).sendExcept
          joinPayload p := by
  unfold Hub.registerStep
  rw [hfresh]
  rfl

theorem Hub.unregisterStep_eq_of_registered (h : Hub) (p : ClientPtr)
    (hreg : h.registered p = true) :
    h.unregisterStep p = (h.mapConns (unregf p)).sendExcept leavePayload p := by
  unfold Hub.unregisterStep
  rw [hreg]
  rfl

/-- Unregister of a connection not in the `clients` map is a no-op. -/
theorem Hub.unregisterStep_eq_of_not_registered (h : Hub) (p : ClientPtr)
    (hreg : h.registered p = false) :
    h.unregisterStep p = h := by
  unfold Hub.unregisterStep
  rw [hreg]
  rfl

theorem Hub.lookup_registerStep_self (h : Hub) (p : ClientPtr) (uuid : String) (cap : Nat)
    (hfresh : List.lookup p h.conns = none) :
    List.lookup p (h.registerStep p uuid cap).conns
      = some { id := uuid, inReg := true, send := freshQueue cap } := by
  rw [h.registerStep_eq_fresh p uuid cap hfresh, Hub.lookup_sendExcept]
  change Option.map (sendf joinPayload p p)
    (List.lookup p (h.conns ++ [(p, { id := uuid, inReg := true, send := freshQueue cap })])) = _
  rw [lookup_append_of_none _ _ _ hfresh]
  simp [List.lookup, sendf]

theorem Hub.lookup_registerStep_other (h : Hub) (p : ClientPtr) (uuid : String) (cap : Nat)
    (q : ClientPtr) (cq : Conn)
    (hfresh : List.lookup p h.conns = none) (hq : List.lookup q h.conns = some cq) :
    List.lookup q (h.registerStep p uuid cap).conns = some (sendf joinPayload p q cq) := by
  rw [h.registerStep_eq_fresh p uuid cap hfresh, Hub.lookup_sendExcept]
  change Option.map (sendf joinPayload p q)
    (List.lookup q (h.conns ++ [(p, { id := uuid, inReg := true, send := freshQueue cap })])) = _
  rw [lookup_append_of_some _ _ _ _ hq]
  rfl

theorem Hub.lookup_unregisterStep_self (h : Hub) (p : ClientPtr) (cp : Conn)
    (hp : List.lookup p h.conns = some cp) (hreg : cp.inReg = true) :
    List.lookup p (h.unregisterStep p).conns
      = some { cp with inReg := false, send := cp.send.close } := by
  rw [h.unregisterStep_eq_of_registered p ((h.registered_eq_of_lookup p cp hp).trans hreg),
    Hub.lookup_sendExcept, Hub.lookup_mapConns, hp]
  simp [unregf, sendf]

theorem Hub.lookup_unregisterStep_other (h : Hub) (p q : ClientPtr) (cq : Conn)
    (hreg : h.registered p = true) (hqp : q ≠ p) (hq : List.lookup q h.conns = some cq) :
    List.lookup q (h.unregisterStep p).conns = some (sendf leavePayload p q cq) := by
  rw [h.unregisterStep_eq_of_registered p hreg,
    Hub.lookup_sendExcept, Hub.lookup_mapConns, hq]
  simp [unregf, hqp]

/-! ### Registry size -/

theorem length_filter_map_keyed (f : ClientPtr → Conn → Conn)
    (hf : ∀ k cn, (f k cn).inReg = cn.inReg) (l : List (ClientPtr × Conn)) :
    ((l.map (fun e => (e.1, f e.1 e.2))).filter (fun e => e.2.inReg)).length
      = (l.filter (fun e => e.2.inReg)).length := by
  induction l with
  | nil => rfl
  | cons a l ih =>
    simp only [List.map_cons, List.filter_cons]
    rw [hf a.1 a.2]
    cases hc : a.2.inReg
    · simpa [hc] using ih
    · simpa [hc] using ih

theorem Hub.registrySize_mapConns (h : Hub) (f : ClientPtr → Conn → Conn)
    (hf : ∀ k cn, (f k cn).inReg = cn.inReg) :
    (h.mapConns f).registrySize = h.registrySize :=
  length_filter_map_keyed f hf h.conns

theorem sendf_inReg (msg : String) (ig k : ClientPtr) (cn : Conn) :
    (sendf msg ig k cn).inReg = cn.inReg := by
  unfold sendf
  split <;> rfl

theorem Hub.registrySize_sendExcept (h : Hub) (msg : String) (ig : ClientPtr) :
    (h.sendExcept msg ig).registrySize = h.registrySize :=
  h.registrySize_mapConns (sendf msg ig) (sendf_inReg msg ig)

theorem Hub.registrySize_registerStep (h : Hub) (p : ClientPtr) (uuid : String) (cap : Nat)
    (hfresh : List.lookup p h.conns = none) :
    (h.registerStep p uuid cap).registrySize = h.registrySize + 1 := by
  rw [h.registerStep_eq_fresh p uuid cap hfresh, Hub.registrySize_sendExcept]
  simp [Hub.registrySize, Hub.registry, List.filter_append]

/-! ### The registry/open invariant and its preservation -/

theorem Hub.inv_lookup (h : Hub) (p : ClientPtr) (cn : Conn)
    (hinv : h.inv = true) (hp : List.lookup p h.conns = some cn) :
    cn.inReg = cn.send.isOpen := by
  have hmem := mem_of_lookup_eq_some _ _ _ hp
  have hall := List.all_eq_true.mp hinv _ hmem
  simpa using hall

theorem Hub.inv_mapConns (h : Hub) (f : ClientPtr → Conn → Conn)
    (hf : ∀ k cn, cn.inReg = cn.send.isOpen → (f k cn).inReg = (f k cn).send.isOpen)
    (hinv : h.inv = true) : (h.mapConns f).inv = true := by
  unfold Hub.inv Hub.mapConns at *
  rw [List.all_eq_true] at hinv ⊢
  intro e he
  simp only [List.mem_map] at he
  obtain ⟨a, ha, rfl⟩ := he
  have := hinv a ha
  simp only [beq_iff_eq] at this ⊢
  exact hf a.1 a.2 this

theorem sendf_isOpen (msg : String) (ig k : ClientPtr) (cn : Conn) :
    (sendf msg ig k cn).send.isOpen = cn.send.isOpen := by
  unfold sendf
  split <;> rfl

theorem sendf_preserves_inv (msg : String) (ig k : ClientPtr) (cn : Conn)
    (hcn : cn.inReg = cn.send.isOpen) :
    (sendf msg ig k cn).inReg = (sendf msg ig k cn).send.isOpen := by
  rw [sendf_inReg, sendf_isOpen]
  exact hcn

theorem unregf_preserves_inv (p k : ClientPtr) (cn : Conn)
    (hcn : cn.inReg = cn.send.isOpen) :
    (unregf p k cn).inReg = (unregf p k cn).send.isOpen := by
  unfold unregf
  split
  · rfl
  · exact hcn

theorem broadcastConn_preserves_inv (m : String) (cn : Conn)
    (hcn : cn.inReg = cn.send.isOpen) :
    (broadcastConn m cn).inReg = (broadcastConn m cn).send.isOpen := by
  unfold broadcastConn
  split
  · split
    · simpa [SendQueue.enqueue] using hcn
    · rfl
  · exact hcn

theorem freshOp_register (h : Hub) (p : ClientPtr) (uuid : String) (cap : Nat)
    (hf : freshOp h (Op.register p uuid cap) = true) :
    List.lookup p h.conns = none := by
  simpa [freshOp, Option.isNone_iff_eq_none] using hf

theorem Hub.inv_step (h : Hub) (op : Op)
    (hinv : h.inv = true) (hf : freshOp h op = true) :
    (h.step op).inv = true := by
  cases op with
  | register p uuid cap =>
    have hfresh := freshOp_register h p uuid cap hf
    rw [Hub.step, h.registerStep_eq_fresh p uuid cap hfresh]
    unfold Hub.sendExcept
    apply Hub.inv_mapConns _ _ (sendf_preserves_inv joinPayload p)
    unfold Hub.inv at hinv ⊢
    rw [List.all_append]
    simp [hinv, freshQueue]
  | unregister p =>
    rcases Bool.eq_false_or_eq_true (h.registered p) with hreg | hreg
    · rw [Hub.step, h.unregisterStep_eq_of_registered p hreg]
      unfold Hub.sendExcept
      exact Hub.inv_mapConns _ _ (sendf_preserves_inv leavePayload p)
        (h.inv_mapConns _ (unregf_preserves_inv p) hinv)
    · rw [Hub.step, h.unregisterStep_eq_of_not_registered p hreg]
      exact hinv
  | broadcast m =>
    rw [Hub.step]
    exact h.inv_mapConns _ (fun k cn => broadcastConn_preserves_inv m cn) hinv

theorem Hub.inv_run (h : Hub) (ops : List Op)
    (hinv : h.inv = true) (hfresh : h.freshRun ops = true) :
    (h.run ops).inv = true := by
  induction ops generalizing h with
  | nil => exact hinv
  | cons op ops ih =>
    rw [Hub.run]
    have hsp : freshOp h op = true ∧ (h.step op).freshRun ops = true := by
      simpa [Hub.freshRun] using hfresh
    exact ih (h.step op) (h.inv_step op hinv hsp.1) hsp.2

/-! ### Well-formedness preservation -/

theorem lookup_none_not_mem_keys (l : List (ClientPtr × Conn)) (p : ClientPtr)
    (h : List.lookup p l = none) : p ∉ l.map Prod.fst := by
  intro hmem
  obtain ⟨a, ha, hfst⟩ := List.mem_map.mp hmem
  exact lookup_none_not_mem l p a.2 h (by rw [← hfst]; simpa using ha)

theorem Hub.WF_mapConns (h : Hub) (f : ClientPtr → Conn → Conn) (hwf : h.WF) :
    (h.mapConns f).WF := by
  unfold Hub.WF
  rw [h.keys_mapConns f]
  exact hwf

theorem Hub.WF_step (h : Hub) (op : Op) (hwf : h.WF) (hf : freshOp h op = true) :
    (h.step op).WF := by
  cases op with
  | register p uuid cap =>
    have hfresh := freshOp_register h p uuid cap hf
    rw [Hub.step, h.registerStep_eq_fresh p uuid cap hfresh]
    apply Hub.WF_mapConns
    unfold Hub.WF Hub.keys at *
    rw [List.map_append]
    rw [List.nodup_append]
    refine ⟨hwf, List.nodup_singleton p, ?_⟩
    intro x hx hx'
    have hxp : x = p := by simpa using hx'
    exact lookup_none_not_mem_keys h.conns p hfresh (hxp ▸ hx)
  | unregister p =>
    rcases Bool.eq_false_or_eq_true (h.registered p) with hreg | hreg
    · rw [Hub.step, h.unregisterStep_eq_of_registered p hreg]
      exact Hub.WF_mapConns _ _ (h.WF_mapConns _ hwf)
    · rw [Hub.step, h.unregisterStep_eq_of_not_registered p hreg]
      exact hwf
  | broadcast m =>
    exact h.WF_mapConns _ hwf

/-! ### Counting close executions -/

theorem Hub.conns_mk (l : List (ClientPtr × Conn)) : (Hub.mk l).conns = l := rfl

theorem allowance_le_one (h : Hub) (c : ClientPtr) : allowance h c ≤ 1 := by
  unfold allowance
  cases List.lookup c h.conns with
  | none => exact Nat.le_refl 1
  | some cn =>
    show (if cn.inReg then 1 else 0) ≤ 1
    split <;> simp

theorem allowance_mapConns (h : Hub) (f : ClientPtr → Conn → Conn)
    (hf : ∀ k cn, (f k cn).inReg = cn.inReg) (c : ClientPtr) :
    allowance (h.mapConns f) c = allowance h c := by
  unfold allowance
  rw [Hub.lookup_mapConns]
  cases List.lookup c h.conns with
  | none => rfl
  | some cn => simp [hf]

theorem filter_filter_bool (p q : ClientPtr × Conn → Bool) (l : List (ClientPtr × Conn)) :
    (l.filter p).filter q = l.filter (fun a => p a && q a) := by
  induction l with
  | nil => rfl
  | cons a l ih => cases hp : p a <;> cases hq : q a <;> simp [List.filter_cons, hp, hq, ih]

theorem count_keys_filter_none (q : ClientPtr × Conn → Bool) (c : ClientPtr)
    (l : List (ClientPtr × Conn)) (h : List.lookup c l = none) :
    ((l.filter q).map Prod.fst).count c = 0 := by
  rw [List.count_eq_zero]
  intro hmem
  obtain ⟨e, he, hfst⟩ := List.mem_map.mp hmem
  exact lookup_none_not_mem l c e.2 h
    (by rw [← hfst]; simpa using List.mem_of_mem_filter he)

theorem count_keys_filter_some_neg (q : ClientPtr × Conn → Bool) (c : ClientPtr) (cn : Conn)
    (l : List (ClientPtr × Conn)) (hnd : (l.map Prod.fst).Nodup)
    (hl : List.lookup c l = some cn) (hq : q (c, cn) = false) :
    ((l.filter q).map Prod.fst).count c = 0 := by
  rw [List.count_eq_zero]
  intro hmem
  obtain ⟨e, he, hfst⟩ := List.mem_map.mp hmem
  have he' : e ∈ l := List.mem_of_mem_filter he
  have hlk : List.lookup c l = some e.2 :=
    lookup_eq_some_of_mem_nodup l c e.2 hnd (by rw [← hfst]; simpa using he')
  have he2 : e.2 = cn := Option.some.inj (hlk.symm.trans hl)
  have hqe : q e = true := List.of_mem_filter he
  rw [show e = (c, cn) from Prod.ext_iff.mpr ⟨hfst, he2⟩, hq] at hqe
  cases hqe

theorem count_keys_filter_some_pos (q : ClientPtr × Conn → Bool) (c : ClientPtr) (cn : Conn)
    (l : List (ClientPtr × Conn)) (hnd : (l.map Prod.fst).Nodup)
    (hl : List.lookup c l = some cn) (hq : q (c, cn) = true) :
    ((l.filter q).map Prod.fst).count c = 1 := by
  have hsub : List.Sublist ((l.filter q).map Prod.fst) (l.map Prod.fst) :=
    (List.filter_sublist l).map Prod.fst
  have hnd2 : ((l.filter q).map Prod.fst).Nodup := hnd.sublist hsub
  have hmem : (c, cn) ∈ l.filter q :=
    List.mem_filter.mpr ⟨mem_of_lookup_eq_some l c cn hl, hq⟩
  exact List.count_eq_one_of_mem hnd2 (List.mem_map.mpr ⟨(c, cn), hmem, rfl⟩)

theorem closedBy_count_allowance (h : Hub) (op : Op) (c : ClientPtr)
    (hwf : h.WF) (hf : freshOp h op = true) :
    (h.closedBy op).count c + allowance (h.step op) c ≤ allowance h c := by
  cases op with
  | register p uuid cap =>
    have hfresh := freshOp_register h p uuid cap hf
    rw [Hub.closedBy, List.count_nil, Nat.zero_add, Hub.step,
      h.registerStep_eq_fresh p uuid cap hfresh]
    unfold Hub.sendExcept
    rw [allowance_mapConns _ _ (sendf_inReg joinPayload p)]
    unfold allowance
    rw [Hub.conns_mk]
    by_cases hcp : c = p
    · subst hcp
      rw [hfresh, lookup_append_of_none _ _ _ hfresh]
      simp [List.lookup]
    · cases hlc : List.lookup c h.conns with
      | none =>
        rw [lookup_append_of_none _ _ _ hlc]
        have hb : (c == p) = false := beq_eq_false_iff_ne.mpr hcp
        simp [List.lookup, hb]
      | some cn =>
        rw [lookup_append_of_some _ _ _ _ hlc]
  | unregister p =>
    rcases Bool.eq_false_or_eq_true (h.registered p) with hreg | hreg
    · -- the connection is registered: one close, afterwards out of the registry
      rw [Hub.step, h.unregisterStep_eq_of_registered p hreg]
      unfold Hub.sendExcept
      rw [allowance_mapConns _ _ (sendf_inReg leavePayload p)]
      simp only [Hub.closedBy, hreg, if_true]
      cases hlp : List.lookup p h.conns with
      | none => rw [h.registered_eq_false_of_lookup_none p hlp] at hreg; cases hreg
      | some cp =>
        have hcp : cp.inReg = true := (h.registered_eq_of_lookup p cp hlp).symm.trans hreg
        by_cases hc : c = p
        · subst hc
          have hcnt : List.count c [c] = 1 := by simp
          have hall : allowance (h.mapConns (unregf c)) c = 0 := by
            unfold allowance
            rw [Hub.lookup_mapConns, hlp]
            simp [unregf]
          have hall2 : allowance h c = 1 := by
            unfold allowance
            rw [hlp]
            simp [hcp]
          omega
        · have hcnt : List.count c [p] = 0 := by
            rw [List.count_eq_zero]
            simpa using hc
          have hall : allowance (h.mapConns (unregf p)) c = allowance h c := by
            unfold allowance
            rw [Hub.lookup_mapConns]
            cases hlc : List.lookup c h.conns with
            | none => rfl
            | some cn => simp [unregf, hc]
          omega
    · rw [Hub.step, h.unregisterStep_eq_of_not_registered p hreg]
      simp [Hub.closedBy, hreg]
  | broadcast m =>
    have hcb : h.closedBy (Op.broadcast m)
        = (h.conns.filter (fun e => e.2.inReg && !e.2.send.hasRoom)).map Prod.fst := by
      rw [Hub.closedBy, Hub.registry, filter_filter_bool]
    rw [hcb, Hub.step]
    unfold allowance
    rw [Hub.lookup_broadcastStep]
    cases hlc : List.lookup c h.conns with
    | none =>
      rw [count_keys_filter_none _ _ _ hlc]
      simp
    | some cn =>
      cases hin : cn.inReg with
      | false =>
        rw [count_keys_filter_some_neg _ c cn _ hwf hlc (by simp [hin])]
        simp [broadcastConn, hin]
      | true =>
        cases hroom : cn.send.hasRoom with
        | true =>
          rw [count_keys_filter_some_neg _ c cn _ hwf hlc (by simp [hin, hroom])]
          simp [broadcastConn, hin, hroom]
        | false =>
          rw [count_keys_filter_some_pos _ c cn _ hwf hlc (by simp [hin, hroom])]
          simp [broadcastConn, hin, hroom]

theorem closeTrace_count_le (h : Hub) (ops : List Op) (c : ClientPtr)
    (hwf : h.WF) (hfresh : h.freshRun ops = true) :
    (h.closeTrace ops).count c ≤ allowance h c := by
  induction ops generalizing h with
  | nil => simp [Hub.closeTrace]
  | cons op ops ih =>
    rw [Hub.closeTrace, List.count_append]
    have hsp : freshOp h op = true ∧ (h.step op).freshRun ops = true := by
      simpa [Hub.freshRun] using hfresh
    have h1 := closedBy_count_allowance h op c hwf hsp.1
    have h2 := ih (h.step op) (h.WF_step op hwf hsp.1) hsp.2
    omega

/-! ### Every close acts on an open channel -/

theorem closedBy_all_open (h : Hub) (op : Op) (hwf : h.WF) (hinv : h.inv = true) :
    (h.closedBy op).all (fun c =>
      match List.lookup c h.conns with
      | some cn => cn.send.isOpen
      | none => false) = true := by
  cases op with
  | register p uuid cap => rfl
  | unregister p =>
    rcases Bool.eq_false_or_eq_true (h.registered p) with hreg | hreg
    · simp only [Hub.closedBy, hreg, if_true, List.all_cons, List.all_nil, Bool.and_true]
      cases hlp : List.lookup p h.conns with
      | none => rw [h.registered_eq_false_of_lookup_none p hlp] at hreg; cases hreg
      | some cp =>
        have hcp : cp.inReg = true := (h.registered_eq_of_lookup p cp hlp).symm.trans hreg
        have := h.inv_lookup p cp hinv hlp
        simp [← this, hcp]
    · simp [Hub.closedBy, hreg]
  | broadcast m =>
    rw [List.all_eq_true]
    intro c hc
    rw [Hub.closedBy] at hc
    obtain ⟨e, he, hfst⟩ := List.mem_map.mp hc
    have he1 : e ∈ h.registry := List.mem_of_mem_filter he
    have he2 : e ∈ h.conns := List.mem_of_mem_filter he1
    have hin : e.2.inReg = true := by simpa using List.of_mem_filter he1
    have hlk : List.lookup c h.conns = some e.2 :=
      lookup_eq_some_of_mem_nodup h.conns c e.2 hwf (by rw [← hfst]; simpa using he2)
    have hopen := h.inv_lookup c e.2 hinv hlk
    rw [hlk]
    simpa [← hopen] using hin

theorem closesOpenRun_of_inv (h : Hub) (ops : List Op)
    (hwf : h.WF) (hinv : h.inv = true) (hfresh : h.freshRun ops = true) :
    h.closesOpenRun ops = true := by
  induction ops generalizing h with
  | nil => rfl
  | cons op ops ih =>
    have hsp : freshOp h op = true ∧ (h.step op).freshRun ops = true := by
      simpa [Hub.freshRun] using hfresh
    unfold Hub.closesOpenRun
    rw [Bool.and_eq_true]
    exact ⟨closedBy_all_open h op hwf hinv,
      ih (h.step op) (h.WF_step op hwf hsp.1) (h.inv_step op hinv hsp.1) hsp.2⟩

/-! ### Claim theorems -/

/-- Claim C1: processing Broadcast for a peer-originated message delivers
it to the outbound queue of every currently registered connection whose
bounded queue can accept it, the originating connection included (take
`q := p`), and the inbound pump wraps a peer text `t` read from the
connection with identity `A` as the envelope with sender `A` and content
`t` before submitting it to Broadcast. -/
theorem C1_broadcast_fanout (h : Hub) (p q : ClientPtr) (cp cq : Conn) (t : String)
    (hp : List.lookup p h.conns = some cp) (hpreg : cp.inReg = true)
    (hq : List.lookup q h.conns = some cq) (hqreg : cq.inReg = true)
    (hroom : cq.send.hasRoom = true) :
    inboundPayload cp.id t
        = Message.render { sender := cp.id, recipient := "", content := t }
    ∧ List.lookup q (h.broadcastStep (inboundPayload cp.id t)).conns
        = some { cq with send := cq.send.enqueue (inboundPayload cp.id t) } := by
  refine ⟨rfl, ?_⟩
  rw [Hub.lookup_broadcastStep, hq]
  simp [broadcastConn, hqreg, hroom]

theorem C1_broadcast_fanout_witness :
    (inboundPayload "A" "hi"
        = Message.render { sender := "A", recipient := "", content := "hi" }
      ∧ List.lookup 1 (hubAB.broadcastStep (inboundPayload "A" "hi")).conns
        = some { id := "B", inReg := true,
                 send := (freshQueue 2).enqueue (inboundPayload "A" "hi") })
    ∧ List.lookup 0 (hubAB.broadcastStep (inboundPayload "A" "hi")).conns
        = some { id := "A", inReg := true,
                 send := (freshQueue 2).enqueue (inboundPayload "A" "hi") } :=
  ⟨C1_broadcast_fanout hubAB 0 1 { id := "A", inReg := true, send := freshQueue 2 }
      { id := "B", inReg := true, send := freshQueue 2 } "hi"
      (by decide) (by decide) (by decide) (by decide) (by decide),
    (C1_broadcast_fanout hubAB 0 0 { id := "A", inReg := true, send := freshQueue 2 }
      { id := "A", inReg := true, send := freshQueue 2 } "hi"
      (by decide) (by decide) (by decide) (by decide) (by decide)).2⟩

/-- Claim C2: when a registered connection's queue cannot accept the
broadcast message, the hub closes that connection's queue and removes it
from the registry within the same pass (its buffer is left untouched — in
particular no leave notice is broadcast from within the pass, every queue
either stays unchanged or receives exactly the broadcast message), and the
message is still delivered to every other registered connection with
room. -/
theorem C2_slow_consumer_eviction (h : Hub) (x q : ClientPtr) (cx cq : Conn) (m : String)
    (hx : List.lookup x h.conns = some cx) (hxreg : cx.inReg = true)
    (hxfull : cx.send.hasRoom = false)
    (hq : List.lookup q h.conns = some cq) (hqreg : cq.inReg = true)
    (hqroom : cq.send.hasRoom = true) :
    List.lookup x (h.broadcastStep m).conns
      = some { cx with inReg := false, send := cx.send.close }
    ∧ (h.broadcastStep m).registered x = false
    ∧ List.lookup q (h.broadcastStep m).conns
      = some { cq with send := cq.send.enqueue m }
    ∧ ∀ (r : ClientPtr) (cr : Conn), List.lookup r h.conns = some cr →
        List.lookup r (h.broadcastStep m).conns = some (broadcastConn m cr)
        ∧ ((broadcastConn m cr).send.buf = cr.send.buf
            ∨ (broadcastConn m cr).send.buf = cr.send.buf ++ [m]) := by
  refine ⟨?_, ?_, ?_, ?_⟩
  · rw [Hub.lookup_broadcastStep, hx]
    simp [broadcastConn, hxreg, hxfull]
  · unfold Hub.registered
    rw [Hub.lookup_broadcastStep, hx]
    simp [broadcastConn, hxreg, hxfull]
  · rw [Hub.lookup_broadcastStep, hq]
    simp [broadcastConn, hqreg, hqroom]
  · intro r cr hr
    constructor
    · rw [Hub.lookup_broadcastStep, hr]
      rfl
    · cases hin : cr.inReg with
      | false =>
        left
        simp [broadcastConn, hin]
      | true =>
        cases hrm : cr.send.hasRoom with
        | false =>
          left
          simp [broadcastConn, hin, hrm, SendQueue.close]
        | true =>
          right
          simp [broadcastConn, hin, hrm, SendQueue.enqueue]

theorem C2_slow_consumer_eviction_witness :
    List.lookup 0 (hubSlow.broadcastStep "m").conns
      = some { id := "A", inReg := false, send := SendQueue.close (freshQueue 0) }
    ∧ (hubSlow.broadcastStep "m").registered 0 = false
    ∧ List.lookup 1 (hubSlow.broadcastStep "m").conns
      = some { id := "B", inReg := true, send := (freshQueue 2).enqueue "m" }
    ∧ ((broadcastConn "m" { id := "A", inReg := true, send := freshQueue 0 }).send.buf
          = (freshQueue 0).buf
        ∨ (broadcastConn "m" { id := "A", inReg := true, send := freshQueue 0 }).send.buf
          = (freshQueue 0).buf ++ ["m"]) := by
  obtain ⟨h1, h2, h3, h4⟩ := C2_slow_consumer_eviction hubSlow 0 1
    { id := "A", inReg := true, send := freshQueue 0 }
    { id := "B", inReg := true, send := freshQueue 2 } "m"
    (by decide) (by decide) (by decide) (by decide) (by decide) (by decide)
  exact ⟨h1, h2, h3, (h4 0 { id := "A", inReg := true, send := freshQueue 0 } (by decide)).2⟩

/-- Claim C3: registering a fresh connection adds it to the registry
(size +1) and delivers the system join notice to the outbound queue of
every already-registered member, never to the new connection's own queue
(it comes out empty) and not to known-but-unregistered connections. -/
theorem C3_join_notice_to_others (h : Hub) (c q r : ClientPtr) (uuid : String) (cap : Nat)
    (cq cr : Conn)
    (hc : List.lookup c h.conns = none)
    (hq : List.lookup q h.conns = some cq) (hqreg : cq.inReg = true)
    (hr : List.lookup r h.conns = some cr) (hrreg : cr.inReg = false) :
    (h.registerStep c uuid cap).registrySize = h.registrySize + 1
    ∧ List.lookup c (h.registerStep c uuid cap).conns
      = some { id := uuid, inReg := true, send := freshQueue cap }
    ∧ List.lookup q (h.registerStep c uuid cap).conns
      = some { cq with send := cq.send.enqueue joinPayload }
    ∧ List.lookup r (h.registerStep c uuid cap).conns = some cr
    ∧ joinPayload = Message.render joinNotice := by
  refine ⟨h.registrySize_registerStep c uuid cap hc,
    h.lookup_registerStep_self c uuid cap hc, ?_, ?_, rfl⟩
  · have hqc : q ≠ c := fun hqc => by rw [hqc, hc] at hq; cases hq
    rw [h.lookup_registerStep_other c uuid cap q cq hc hq]
    simp [sendf, hqreg, hqc]
  · rw [h.lookup_registerStep_other c uuid cap r cr hc hr]
    simp [sendf, hrreg]

theorem C3_join_notice_to_others_witness :
    (hubABdead.registerStep 2 "C" 2).registrySize = hubABdead.registrySize + 1
    ∧ List.lookup 2 (hubABdead.registerStep 2 "C" 2).conns
      = some { id := "C", inReg := true, send := freshQueue 2 }
    ∧ List.lookup 0 (hubABdead.registerStep 2 "C" 2).conns
      = some { id := "A", inReg := true, send := (freshQueue 2).enqueue joinPayload }
    ∧ List.lookup 9 (hubABdead.registerStep 2 "C" 2).conns
      = some { id := "X", inReg := false, send := { isOpen := false, cap := 2, buf := [] } }
    ∧ joinPayload = Message.render joinNotice :=
  C3_join_notice_to_others hubABdead 2 0 9 "C" 2
    { id := "A", inReg := true, send := freshQueue 2 }
    { id := "X", inReg := false, send := { isOpen := false, cap := 2, buf := [] } }
    (by decide) (by decide) (by decide) (by decide) (by decide)

/-- Claim C4: Unregister is idempotent.  An unregister of a registered
connection removes it, closes its queue without touching its buffer (so
the leave notice never reaches it), delivers the leave notice to every
remaining registered member and not to known-but-unregistered
connections; a second unregister of the same connection is a no-op, and an
unregister of any connection not in the registry changes nothing. -/
theorem C4_unregister_idempotent (h : Hub) (b q r : ClientPtr) (cb cq cr : Conn)
    (hb : List.lookup b h.conns = some cb) (hbreg : cb.inReg = true)
    (hq : List.lookup q h.conns = some cq) (hqreg : cq.inReg = true) (hqb : q ≠ b)
    (hr : List.lookup r h.conns = some cr) (hrreg : cr.inReg = false) (hrb : r ≠ b) :
    List.lookup b (h.unregisterStep b).conns
      = some { cb with inReg := false, send := cb.send.close }
    ∧ List.lookup q (h.unregisterStep b).conns
      = some { cq with send := cq.send.enqueue leavePayload }
    ∧ List.lookup r (h.unregisterStep b).conns = some cr
    ∧ (h.unregisterStep b).unregisterStep b = h.unregisterStep b
    ∧ (∀ (g : Hub) (x : ClientPtr), g.registered x = false → g.unregisterStep x = g)
    ∧ leavePayload = Message.render leaveNotice := by
  have hreg : h.registered b = true := (h.registered_eq_of_lookup b cb hb).trans hbreg
  have h1 := h.lookup_unregisterStep_self b cb hb hbreg
  have hnreg : (h.unregisterStep b).registered b = false := by
    unfold Hub.registered
    rw [h1]
  refine ⟨h1, ?_, ?_, ?_, ?_, rfl⟩
  · rw [h.lookup_unregisterStep_other b q cq hreg hqb hq]
    simp [sendf, hqreg, hqb]
  · rw [h.lookup_unregisterStep_other b r cr hreg hrb hr]
    simp [sendf, hrreg]
  · exact (h.unregisterStep b).unregisterStep_eq_of_not_registered b hnreg
  · intro g x hgx
    exact g.unregisterStep_eq_of_not_registered x hgx

theorem C4_unregister_idempotent_witness :
    List.lookup 1 (hubABdead.unregisterStep 1).conns
      = some { id := "B", inReg := false, send := SendQueue.close (freshQueue 2) }
    ∧ List.lookup 0 (hubABdead.unregisterStep 1).conns
      = some { id := "A", inReg := true, send := (freshQueue 2).enqueue leavePayload }
    ∧ List.lookup 9 (hubABdead.unregisterStep 1).conns
      = some { id := "X", inReg := false, send := { isOpen := false, cap := 2, buf := [] } }
    ∧ (hubABdead.unregisterStep 1).unregisterStep 1 = hubABdead.unregisterStep 1
    ∧ (∀ (g : Hub) (x : ClientPtr), g.registered x = false → g.unregisterStep x = g)
    ∧ leavePayload = Message.render leaveNotice :=
  C4_unregister_idempotent hubABdead 1 0 9
    { id := "B", inReg := true, send := freshQueue 2 }
    { id := "A", inReg := true, send := freshQueue 2 }
    { id := "X", inReg := false, send := { isOpen := false, cap := 2, buf := [] } }
    (by decide) (by decide) (by decide) (by decide) (by decide)
    (by decide) (by decide) (by decide)

/-- Claim C5 counterexample: the register branch performs no
duplicate-identity check.  With a connection of identity "u" registered,
registering a second connection carrying the same identity "u" is
accepted: the registry grows from 1 to 2 and the new connection is
registered — the registry is not left unchanged and no error occurs
(`start()` has no error channel at all). -/
theorem C5_duplicate_identity_cex :
    List.lookup 0 dupHub.conns = some { id := "u", inReg := true, send := freshQueue 1 }
    ∧ dupHub.registrySize = 1
    ∧ (dupHub.registerStep 1 "u" 1).registrySize = 2
    ∧ (dupHub.registerStep 1 "u" 1).registered 1 = true
    ∧ List.lookup 1 (dupHub.registerStep 1 "u" 1).conns
      = some { id := "u", inReg := true, send := freshQueue 1 } := by decide

/-- Claim C5 amended: Register never fails and performs no identity
check: the registry is keyed by the connection itself (pointer), and a
register request for a connection the hub has not seen is always accepted
— whatever its identity string, even one already present — adding it to
the registry (size +1). -/
theorem C5_register_unconditional (h : Hub) (c : ClientPtr) (uuid : String) (cap : Nat)
    (hc : List.lookup c h.conns = none) :
    (h.registerStep c uuid cap).registered c = true
    ∧ (h.registerStep c uuid cap).registrySize = h.registrySize + 1 := by
  constructor
  · unfold Hub.registered
    rw [h.lookup_registerStep_self c uuid cap hc]
  · exact h.registrySize_registerStep c uuid cap hc

theorem C5_register_unconditional_witness :
    (dupHub.registerStep 2 "u" 1).registered 2 = true
    ∧ (dupHub.registerStep 2 "u" 1).registrySize = dupHub.registrySize + 1 :=
  C5_register_unconditional dupHub 2 "u" 1 (by decide)

/-- Claim C6 counterexample: the join notice built by the register branch
of `manager.go` has content "New client connected", whose first character
is 'N', not the sentinel '/'. -/
theorem C6_join_notice_sentinel_cex :
    Message.render joinNotice = "\x7b\"content\":\"New client connected\"\x7d"
    ∧ joinNotice.content.data.head? = some 'N'
    ∧ ¬ joinNotice.content.data.head? = some '/' := by decide

/-- Claim C6 amended: both system notices populate only the content field
(their serialized JSON is exactly a one-field object, with no sender and
no recipient); the leave notice content begins with the sentinel '/', but
the join notice content is "New client connected", which does not. -/
theorem C6_notice_shape :
    Message.render joinNotice = "\x7b\"content\":\"New client connected\"\x7d"
    ∧ Message.render leaveNotice = "\x7b\"content\":\"/A socket disconnected.\"\x7d"
    ∧ joinNotice.sender = "" ∧ joinNotice.recipient = ""
    ∧ leaveNotice.sender = "" ∧ leaveNotice.recipient = ""
    ∧ leaveNotice.content.data.head? = some '/'
    ∧ ¬ joinNotice.content.data.head? = some '/' := by decide

/-- Claim C7: starting from any state satisfying the registry/open
invariant (e.g. connections registered with freshly created open queues),
every run of Register / Unregister / Broadcast requests in which register
requests carry fresh connections preserves the invariant: a connection is
in the registry iff its outbound queue has not been closed. -/
theorem C7_registry_open_invariant (h : Hub) (ops : List Op)
    (hinv : h.inv = true) (hfresh : h.freshRun ops = true) :
    (h.run ops).inv = true :=
  h.inv_run ops hinv hfresh

theorem C7_registry_open_invariant_witness :
    (hubAB.run [Op.register 2 "C" 1, Op.broadcast "m", Op.unregister 0]).inv = true :=
  C7_registry_open_invariant hubAB [Op.register 2 "C" 1, Op.broadcast "m", Op.unregister 0]
    (by decide) (by decide)

theorem get_append_pair (l : List String) (a b : String) :
    ((l ++ [a]) ++ [b])[l.length]? = some a
    ∧ ((l ++ [a]) ++ [b])[l.length + 1]? = some b := by
  induction l with
  | nil => exact ⟨rfl, rfl⟩
  | cons x l ih => simpa using ih

/-- Claim C8: after two Broadcast passes processed in sequence, every
connection still registered has received both messages, with the first
strictly before the second in its outbound queue. -/
theorem C8_same_origin_ordering (h : Hub) (m1 m2 : String) (p : ClientPtr) (cp : Conn)
    (hp : List.lookup p h.conns = some cp)
    (hlive : ((h.broadcastStep m1).broadcastStep m2).registered p = true) :
    List.lookup p ((h.broadcastStep m1).broadcastStep m2).conns
      = some { cp with send := (cp.send.enqueue m1).enqueue m2 }
    ∧ ∃ i j : Nat, i < j
      ∧ ((cp.send.enqueue m1).enqueue m2).buf[i]? = some m1
      ∧ ((cp.send.enqueue m1).enqueue m2).buf[j]? = some m2 := by
  have hl2 : List.lookup p ((h.broadcastStep m1).broadcastStep m2).conns
      = some (broadcastConn m2 (broadcastConn m1 cp)) := by
    rw [Hub.lookup_broadcastStep, Hub.lookup_broadcastStep, hp]
    rfl
  have hreg2 : (broadcastConn m2 (broadcastConn m1 cp)).inReg = true := by
    unfold Hub.registered at hlive
    rw [hl2] at hlive
    exact hlive
  have hcases : broadcastConn m2 (broadcastConn m1 cp)
      = { cp with send := (cp.send.enqueue m1).enqueue m2 } := by
    cases hin : cp.inReg with
    | false =>
      exfalso
      simp [broadcastConn, hin] at hreg2
    | true =>
      cases hr1 : cp.send.hasRoom with
      | false =>
        exfalso
        simp [broadcastConn, hin, hr1] at hreg2
      | true =>
        cases hr2 : (cp.send.enqueue m1).hasRoom with
        | false =>
          exfalso
          simp [broadcastConn, hin, hr1, hr2] at hreg2
        | true =>
          simp [broadcastConn, hin, hr1, hr2]
  refine ⟨hl2.trans (congrArg some hcases), ?_⟩
  refine ⟨cp.send.buf.length, cp.send.buf.length + 1, Nat.lt_succ_self _, ?_, ?_⟩
  · simpa [SendQueue.enqueue] using (get_append_pair cp.send.buf m1 m2).1
  · simpa [SendQueue.enqueue] using (get_append_pair cp.send.buf m1 m2).2

theorem C8_same_origin_ordering_witness :
    List.lookup 0 ((hubAB.broadcastStep "x").broadcastStep "y").conns
      = some { id := "A", inReg := true, send := ((freshQueue 2).enqueue "x").enqueue "y" }
    ∧ ∃ i j : Nat, i < j
      ∧ (((freshQueue 2).enqueue "x").enqueue "y").buf[i]? = some "x"
      ∧ (((freshQueue 2).enqueue "x").enqueue "y").buf[j]? = some "y" :=
  C8_same_origin_ordering hubAB "x" "y" 0 { id := "A", inReg := true, send := freshQueue 2 }
    (by decide) (by decide)

/-- Claim C9: JSON serialization of an envelope never fails — a `Message`
has three plain string fields, for which `json.Marshal` is total — so the
conditional "on serialization failure the message is dropped and the
originating connection is not penalized" holds vacuously: the only
request one successful read iteration ever submits is the Broadcast of the
successfully serialized envelope (never an Unregister of the
originator). -/
theorem C9_serialization_never_fails (uuid t : String) :
    (Message.marshal { sender := uuid, recipient := "", content := t }).isSome = true
    ∧ (Message.marshal joinNotice).isSome = true
    ∧ (Message.marshal leaveNotice).isSome = true
    ∧ readIterationOps uuid t
      = [Op.broadcast (Message.render { sender := uuid, recipient := "", content := t })] :=
  ⟨rfl, rfl, rfl, rfl⟩

/-- Claim C10: along any run from a well-formed state satisfying the
registry/open invariant, with fresh register requests, the hub executes
close on a given connection's queue at most once, and every close it does
execute acts on a queue that is open at that moment — the Go double-close
panic is unreachable.  In particular an Unregister arriving after a
slow-consumer eviction performs no second close. -/
theorem C10_close_at_most_once (h : Hub) (ops : List Op) (c : ClientPtr)
    (hwf : h.WF) (hinv : h.inv = true) (hfresh : h.freshRun ops = true) :
    (h.closeTrace ops).count c ≤ 1
    ∧ h.closesOpenRun ops = true :=
  ⟨Nat.le_trans (closeTrace_count_le h ops c hwf hfresh) (allowance_le_one h c),
    closesOpenRun_of_inv h ops hwf hinv hfresh⟩

theorem C10_close_at_most_once_witness :
    (hubSlow.closeTrace [Op.broadcast "m", Op.unregister 0, Op.register 2 "C" 1]).count 0 ≤ 1
    ∧ hubSlow.closesOpenRun [Op.broadcast "m", Op.unregister 0, Op.register 2 "C" 1] = true :=
  C10_close_at_most_once hubSlow [Op.broadcast "m", Op.unregister 0, Op.register 2 "C" 1] 0
    (by unfold Hub.WF; decide) (by decide) (by decide)

end GoChat
